import Mathlib

/-!
Verification of the client-side to-do list manager.

The whole program logic lives in one React component. We embed the state
model and the event handlers as pure Lean functions:

- browser effects are passed in as explicit parameters: the fresh id from
  crypto.randomUUID, the ISO timestamp of the current instant, and the
  Date parsing functions. Date parsing and localeCompare are modelled as
  uninterpreted function parameters, since their output only feeds integer
  comparisons respectively comparator results.
- a React state setter setTasks(prev => e) is embedded as the function
  taking the previous list to e.
- JSON runtime values are modelled by the inductive type Json; the
  stringify/parse pair on the textual side is the identity on Json values,
  so the load path takes the parse outcome directly.
-/

namespace Todo

/-- The priority enum of a task: "low" | "medium" | "high". -/
inductive Priority where
  | low
  | medium
  | high
  deriving DecidableEq, Repr

/-- The priorityRank record of the source: high maps to 0, medium to 1,
low to 2. -/
def priorityRank : Priority → Int
  | Priority.high => 0
  | Priority.medium => 1
  | Priority.low => 2

/-- The string value carried by a priority at the JavaScript runtime. -/
def Priority.toStr : Priority → String
  | Priority.low => "low"
  | Priority.medium => "medium"
  | Priority.high => "high"

/-- The Task record type. createdAt and dueDate hold ISO timestamp
strings, as in the source; dueDate is optional. -/
structure Task where
  id : String
  title : String
  description : String
  completed : Bool
  createdAt : String
  dueDate : Option String
  priority : Priority
  deriving DecidableEq, Repr

/-- The status filter: "all" | "active" | "completed". -/
inductive Status where
  | all
  | active
  | completed
  deriving DecidableEq, Repr

/-- The priority filter: "all" or one concrete priority. -/
inductive PriorityFilter where
  | all
  | only (p : Priority)
  deriving DecidableEq, Repr

/-- The sort key: "created" | "due" | "title" | "priority". -/
inductive SortKey where
  | created
  | due
  | title
  | priority
  deriving DecidableEq, Repr

/-- The FilterState record. -/
structure FilterState where
  query : String
  status : Status
  priority : PriorityFilter
  sort : SortKey
  deriving DecidableEq, Repr

/-- The defaultFilter constant. -/
def defaultFilter : FilterState :=
  { query := "", status := Status.all, priority := PriorityFilter.all,
    sort := SortKey.created }

/-- The draft record held in the form state: the dueDate field is the raw
input value, the empty string when unset. -/
structure Draft where
  title : String
  description : String
  dueDate : String
  priority : Priority
  deriving DecidableEq, Repr

/-- Models JavaScript String.prototype.trim: drop whitespace characters
from both ends. -/
def jsTrim (s : String) : String :=
  String.mk
    (((s.toList.dropWhile Char.isWhitespace).reverse.dropWhile
        Char.isWhitespace).reverse)

/-- Models JavaScript String.prototype.includes: pat occurs as a
contiguous substring of s. -/
def jsIncludes (s pat : String) : Bool :=
  (List.range (s.toList.length + 1)).any fun i =>
    decide (pat.toList = (s.toList.drop i).take pat.toList.length)

/-- The rejection test of the priority guard in the filter predicate:
filter.priority is not "all" and the task priority differs from it. -/
def priorityRejects (fp : PriorityFilter) (p : Priority) : Bool :=
  match fp with
  | PriorityFilter.all => false
  | PriorityFilter.only q => decide (p ≠ q)

/-- The filter callback of filteredTasks, translated guard by guard:
status check, then priority check, then the query branch. The query
emptiness test is on filter.query.trim, while the term that is matched
is the raw filter.query lowercased (the source lowercases the untrimmed
query). -/
def filterPred (f : FilterState) (task : Task) : Bool :=
  if decide (f.status = Status.active) && task.completed then false
  else if decide (f.status = Status.completed) && !task.completed then false
  else if priorityRejects f.priority task.priority then false
  else if jsTrim f.query ≠ "" then
    jsIncludes task.title.toLower f.query.toLower
      || jsIncludes task.description.toLower f.query.toLower
  else true

/-- The combined outcome of the two status guards of the filter callback:
true when neither status guard rejects the task. -/
def statusKeeps (f : FilterState) (task : Task) : Bool :=
  !(decide (f.status = Status.active) && task.completed)
    && !(decide (f.status = Status.completed) && !task.completed)

/-- The outcome of the priority guard of the filter callback: true when
the guard does not reject the task. -/
def priorityKeeps (f : FilterState) (task : Task) : Bool :=
  !(priorityRejects f.priority task.priority)

/-- True when the task's dueDate is falsy at the JavaScript runtime:
undefined, or the empty string. -/
def dueFalsy (t : Task) : Bool :=
  match t.dueDate with
  | none => true
  | some s => decide (s = "")

/-- The sort comparator of filteredTasks. getTime models
s => new Date(s).getTime() and localeCompare models
(a, b) => a.localeCompare(b); both are uninterpreted parameters. The
"due" branch follows the source: two falsy due dates compare equal, a
falsy due date sorts after a present one, otherwise the due timestamps
are compared; the default branch is the descending createdAt compare. -/
def taskCompare (getTime : String → Int) (localeCompare : String → String → Int)
    (sort : SortKey) (a b : Task) : Int :=
  match sort with
  | SortKey.title => localeCompare a.title b.title
  | SortKey.priority => priorityRank a.priority - priorityRank b.priority
  | SortKey.due =>
      if dueFalsy a && dueFalsy b then 0
      else if dueFalsy a then 1
      else if dueFalsy b then -1
      else getTime (a.dueDate.getD "") - getTime (b.dueDate.getD "")
  | SortKey.created => getTime b.createdAt - getTime a.createdAt

/-- Models Array.prototype.sort under a comparator: a stable sort that
puts a before b whenever the comparator returns at most 0 on (a, b).
Array.prototype.sort is specified stable, which insertion sort realises. -/
def sortTasks (cmp : Task → Task → Int) (l : List Task) : List Task :=
  List.insertionSort (fun a b => cmp a b ≤ 0) l

/-- The filteredTasks projection: copy, filter, then sort the copy with
the comparator selected by the filter's sort key. -/
def filteredTasks (getTime : String → Int) (localeCompare : String → String → Int)
    (tasks : List Task) (f : FilterState) : List Task :=
  sortTasks (taskCompare getTime localeCompare f.sort) (tasks.filter (filterPred f))

/-- The projection run against the store state: the source spreads the
state array into a fresh copy, filters it into another fresh array and
sorts that one in place, so the store component comes back unchanged next
to the derived sequence. -/
def projectorRun (getTime : String → Int) (localeCompare : String → String → Int)
    (state : List Task) (f : FilterState) : List Task × List Task :=
  let copy := state
  let flt := copy.filter (filterPred f)
  (state, sortTasks (taskCompare getTime localeCompare f.sort) flt)

/-- The handleSubmit handler. freshId models crypto.randomUUID(), nowIso
models new Date().toISOString(), parseDueIso models
s => new Date(s).toISOString(). Returns the updated task list and the
updated draft: a no-op pair when the trimmed title is empty, otherwise
the new task is prepended and the draft is reset. The draft dueDate is
falsy exactly when it is the empty string. -/
def handleSubmit (freshId nowIso : String) (parseDueIso : String → String)
    (draft : Draft) (tasks : List Task) : List Task × Draft :=
  if jsTrim draft.title = "" then (tasks, draft)
  else
    let newTask : Task :=
      { id := freshId
        title := jsTrim draft.title
        description := jsTrim draft.description
        completed := false
        createdAt := nowIso
        dueDate := if draft.dueDate = "" then none else some (parseDueIso draft.dueDate)
        priority := draft.priority }
    (newTask :: tasks,
      { title := "", description := "", dueDate := "", priority := Priority.medium })

/-- A patch value of type Partial Task: each field is present or absent. -/
structure Patch where
  id : Option String := none
  title : Option String := none
  description : Option String := none
  completed : Option Bool := none
  createdAt : Option String := none
  dueDate : Option (Option String) := none
  priority : Option Priority := none
  deriving DecidableEq, Repr

/-- The object spread of task then patch: every field present in the
patch overwrites the task's field. -/
def applyPatch (task : Task) (p : Patch) : Task :=
  { id := p.id.getD task.id
    title := p.title.getD task.title
    description := p.description.getD task.description
    completed := p.completed.getD task.completed
    createdAt := p.createdAt.getD task.createdAt
    dueDate := p.dueDate.getD task.dueDate
    priority := p.priority.getD task.priority }

/-- The updateTask operation: map over the list, spreading the patch
onto the task whose id matches. -/
def updateTask (i : String) (p : Patch) (tasks : List Task) : List Task :=
  tasks.map fun task => if task.id = i then applyPatch task p else task

/-- The deleteTask operation: keep the tasks whose id differs. -/
def deleteTask (i : String) (tasks : List Task) : List Task :=
  tasks.filter fun task => decide (task.id ≠ i)

/-- The clearCompleted operation: keep the tasks that are not completed. -/
def clearCompleted (tasks : List Task) : List Task :=
  tasks.filter fun task => !task.completed

/-- The patch built by the checkbox onChange call site. -/
def togglePatch (checked : Bool) : Patch :=
  { completed := some checked }

/-- The priority rotation of the cycle-priority button: high to medium,
medium to low, low to high. -/
def cyclePriority : Priority → Priority
  | Priority.high => Priority.medium
  | Priority.medium => Priority.low
  | Priority.low => Priority.high

/-- The patch built by the cycle-priority call site. -/
def cyclePriorityPatch (t : Task) : Patch :=
  { priority := some (cyclePriority t.priority) }

/-- JavaScript runtime values that JSON can carry. -/
inductive Json where
  | null
  | bool (b : Bool)
  | num (n : Int)
  | str (s : String)
  | arr (elems : List Json)
  | obj (fields : List (String × Json))
  deriving Repr

/-- JSON.stringify of one Task object: the keys in the literal's
insertion order; the dueDate key is omitted when the value is undefined,
because JSON.stringify drops undefined-valued properties. -/
def taskToJson (t : Task) : Json :=
  Json.obj
    ([("id", Json.str t.id), ("title", Json.str t.title),
      ("description", Json.str t.description),
      ("completed", Json.bool t.completed),
      ("createdAt", Json.str t.createdAt)]
      ++ (match t.dueDate with
          | none => []
          | some d => [("dueDate", Json.str d)])
      ++ [("priority", Json.str t.priority.toStr)])

/-- The persisted snapshot written by the persist effect:
JSON.stringify(tasks). -/
def tasksToJson (tasks : List Task) : Json :=
  Json.arr (tasks.map taskToJson)

/-- The load effect over the outcome of reading and parsing the slot.
The argument encodes the three runtime situations: none when getItem gave
null or the empty string (the falsy guard returns early), some none when
JSON.parse threw on the stored text (the error is logged and the state is
left at its initial empty value), and some (some j) when parsing gave the
value j. The source then adopts j wholesale when Array.isArray(j) holds
and otherwise leaves the state at its initial empty value; no per-element
validation happens. -/
def loadTasks (saved : Option (Option Json)) : List Json :=
  match saved with
  | none => []
  | some none => []
  | some (some (Json.arr elems)) => elems
  | some (some _) => []

/-! Concrete sample data used by witnesses and counterexamples. -/

/-- A sample task that is not completed and has no due date. -/
def sampleTask : Task :=
  { id := "a", title := "A", description := "", completed := false,
    createdAt := "2024-01-01T00:00:00.000Z", dueDate := none,
    priority := Priority.medium }

/-- A sample task that is completed. -/
def sampleDone : Task :=
  { id := "b", title := "B", description := "", completed := true,
    createdAt := "2024-01-02T00:00:00.000Z", dueDate := none,
    priority := Priority.high }

/-! Theorems for the claims. -/

/-- C1: for a draft whose title is non-empty after trimming, handleSubmit
prepends exactly one new task whose title is the trimmed draft title,
whose completed flag is false, whose createdAt is the creation instant
and whose id is the freshly generated identifier; the previous tasks stay
behind it unchanged and in their prior order. -/
theorem handleSubmit_prepends_new_task
    (freshId nowIso : String) (parseDueIso : String → String)
    (draft : Draft) (tasks : List Task)
    (h : jsTrim draft.title ≠ "") :
    ∃ nt : Task,
      (handleSubmit freshId nowIso parseDueIso draft tasks).1 = nt :: tasks ∧
      nt.title = jsTrim draft.title ∧ nt.completed = false ∧
      nt.createdAt = nowIso ∧ nt.id = freshId := by
  unfold handleSubmit
  rw [if_neg h]
  exact ⟨_, rfl, rfl, rfl, rfl, rfl⟩

/-- Witness for C1 at a concrete draft and collection. -/
theorem handleSubmit_prepends_new_task_check :
    ∃ nt : Task,
      (handleSubmit "id1" "2024-03-01T00:00:00.000Z" (fun s => s)
          { title := " buy milk ", description := " d ", dueDate := "",
            priority := Priority.high }
          [sampleTask]).1 = nt :: [sampleTask] ∧
      nt.title = jsTrim " buy milk " ∧ nt.completed = false ∧
      nt.createdAt = "2024-03-01T00:00:00.000Z" ∧ nt.id = "id1" :=
  handleSubmit_prepends_new_task "id1" "2024-03-01T00:00:00.000Z" (fun s => s)
    { title := " buy milk ", description := " d ", dueDate := "",
      priority := Priority.high }
    [sampleTask] (by decide)

/-- C2: for a draft whose title is empty or whitespace only, handleSubmit
leaves the task collection exactly as it was. -/
theorem handleSubmit_empty_title_noop
    (freshId nowIso : String) (parseDueIso : String → String)
    (draft : Draft) (tasks : List Task)
    (h : jsTrim draft.title = "") :
    (handleSubmit freshId nowIso parseDueIso draft tasks).1 = tasks := by
  unfold handleSubmit
  rw [if_pos h]

/-- Witness for C2 at a whitespace-only draft title. -/
theorem handleSubmit_empty_title_noop_check :
    (handleSubmit "id1" "2024-03-01T00:00:00.000Z" (fun s => s)
        { title := "   ", description := "d", dueDate := "",
          priority := Priority.low }
        [sampleTask, sampleDone]).1 = [sampleTask, sampleDone] :=
  handleSubmit_empty_title_noop "id1" "2024-03-01T00:00:00.000Z" (fun s => s)
    { title := "   ", description := "d", dueDate := "",
      priority := Priority.low }
    [sampleTask, sampleDone] (by decide)

/-- C3: clearCompleted keeps exactly the subsequence of tasks whose
completed flag is false: the result is a sublist of the input (so the
kept tasks are unmodified and in their prior relative order), every kept
task is not completed, every not-completed task of the input is kept, and
the result is the filter of the input by the not-completed test. -/
theorem clearCompleted_keeps_active_subsequence (tasks : List Task) :
    List.Sublist (clearCompleted tasks) tasks ∧
    (∀ t ∈ clearCompleted tasks, t.completed = false) ∧
    (∀ t ∈ tasks, t.completed = false → t ∈ clearCompleted tasks) ∧
    clearCompleted tasks = tasks.filter fun t => decide (t.completed = false) := by
  refine ⟨List.filter_sublist tasks, ?_, ?_, ?_⟩
  · intro t ht
    have := List.of_mem_filter ht
    simpa using this
  · intro t ht hc
    exact List.mem_filter.mpr ⟨ht, by simp [hc]⟩
  · unfold clearCompleted
    congr 1
    funext t
    cases h : t.completed <;> simp [h]

/-- Witness for C3: a concrete not-completed task is kept. -/
theorem clearCompleted_keeps_active_subsequence_check :
    sampleTask ∈ clearCompleted [sampleTask, sampleDone] :=
  (clearCompleted_keeps_active_subsequence [sampleTask, sampleDone]).2.2.1
    sampleTask (by decide) rfl

/-- C4 counterexample: a stored snapshot that parses to a JSON array of
non-task-shaped elements is not turned into the empty collection; the
malformed elements are adopted wholesale, because the load path only
checks Array.isArray and never validates elements. -/
theorem loadTasks_adopts_malformed_array :
    loadTasks (some (some (Json.arr [Json.num 1]))) = [Json.num 1] ∧
    [Json.num 1] ≠ ([] : List Json) :=
  ⟨rfl, by simp⟩

/-- C4 (amended): an absent slot, stored text on which parsing throws,
and a parsed non-array value all load as the empty collection without an
error reaching the caller; a parsed array, however, is adopted in its
entirety whatever its elements are. -/
theorem loadTasks_fallback_behaviour :
    loadTasks none = [] ∧
    loadTasks (some none) = [] ∧
    (∀ j : Json, (∀ elems : List Json, j ≠ Json.arr elems) →
      loadTasks (some (some j)) = []) ∧
    (∀ elems : List Json, loadTasks (some (some (Json.arr elems))) = elems) := by
  refine ⟨rfl, rfl, ?_, fun _ => rfl⟩
  intro j hj
  cases j with
  | arr elems => exact absurd rfl (hj elems)
  | null => rfl
  | bool b => rfl
  | num n => rfl
  | str s => rfl
  | obj fields => rfl

/-- Witness for C4 (amended): a parsed non-array JSON value loads as the
empty collection. -/
theorem loadTasks_fallback_behaviour_check :
    loadTasks (some (some (Json.str "oops"))) = [] :=
  loadTasks_fallback_behaviour.2.2.1 (Json.str "oops")
    (fun _ h => Json.noConfusion h)

/-- C5 counterexample: with a query that is empty after trimming, the
filtering stage does not keep every task: a not-completed task is still
dropped when the status filter is "completed", because the three guards
are conjoined and the status guard fires before the query is looked at. -/
theorem emptyQuery_still_drops_by_status :
    jsTrim "" = "" ∧
    List.filter
        (filterPred
          { query := "", status := Status.completed,
            priority := PriorityFilter.all, sort := SortKey.created })
        [sampleTask] ≠ [sampleTask] := by
  exact ⟨rfl, by decide⟩

/-- C5 (amended): when the query is empty after trimming, the query stage
passes every task, so the filter predicate is decided by the status and
priority guards alone; tasks rejected by those guards are still dropped. -/
theorem filterPred_empty_query (f : FilterState) (t : Task)
    (h : jsTrim f.query = "") :
    filterPred f t = (statusKeeps f t && priorityKeeps f t) := by
  unfold filterPred statusKeeps priorityKeeps
  rcases f with ⟨q, st, pr, so⟩
  simp only at h
  simp only [h]
  cases st <;> cases hc : t.completed <;>
    cases hp : priorityRejects pr t.priority <;> simp [hc, hp]

/-- Witness for C5 (amended) at a concrete filter and task. -/
theorem filterPred_empty_query_check :
    filterPred
        { query := " ", status := Status.completed,
          priority := PriorityFilter.all, sort := SortKey.created }
        sampleTask
      = (statusKeeps
          { query := " ", status := Status.completed,
            priority := PriorityFilter.all, sort := SortKey.created }
          sampleTask
        && priorityKeeps
          { query := " ", status := Status.completed,
            priority := PriorityFilter.all, sort := SortKey.created }
          sampleTask) :=
  filterPred_empty_query _ sampleTask (by decide)

/-- C7 counterexample: updateTask applies the patch by object spread, so
a patch that carries an id field overwrites the task's identity; the
claim fails for such a patch. -/
theorem updateTask_can_change_id :
    List.map Task.id (updateTask "a" { id := some "z" } [sampleTask]) ≠
      List.map Task.id [sampleTask] := by
  decide

/-- C7 (amended): for every patch that leaves the id and createdAt fields
unset — as both patches built by the UI call sites do — updateTask
preserves every task's id and createdAt. -/
theorem updateTask_preserves_identity
    (i : String) (p : Patch) (tasks : List Task)
    (hid : p.id = none) (hca : p.createdAt = none) :
    List.map Task.id (updateTask i p tasks) = List.map Task.id tasks ∧
    List.map Task.createdAt (updateTask i p tasks)
      = List.map Task.createdAt tasks := by
  constructor
  · unfold updateTask
    rw [List.map_map]
    have hfun : (Task.id ∘ fun task =>
        if task.id = i then applyPatch task p else task) = Task.id := by
      funext t
      by_cases hti : t.id = i <;> simp [applyPatch, hid, hti]
    rw [hfun]
  · unfold updateTask
    rw [List.map_map]
    have hfun : (Task.createdAt ∘ fun task =>
        if task.id = i then applyPatch task p else task) = Task.createdAt := by
      funext t
      by_cases hti : t.id = i <;> simp [applyPatch, hca, hti]
    rw [hfun]

/-- Witness for C7 (amended): the checkbox call-site patch preserves id
and createdAt on a concrete collection. -/
theorem updateTask_preserves_identity_check :
    List.map Task.id (updateTask "a" (togglePatch true) [sampleTask, sampleDone])
      = List.map Task.id [sampleTask, sampleDone] ∧
    List.map Task.createdAt
        (updateTask "a" (togglePatch true) [sampleTask, sampleDone])
      = List.map Task.createdAt [sampleTask, sampleDone] :=
  updateTask_preserves_identity "a" (togglePatch true) [sampleTask, sampleDone]
    rfl rfl

/-- C8: the projection is pure: running it hands back the store state
unchanged next to the derived sequence, the derived sequence is exactly
the value of the function filteredTasks of the inputs (so recomputing it
from the same inputs gives the same sequence), and that sequence is a
permutation of the filtered input, so it contains nothing that was not
derived from the collection. -/
theorem projector_pure (getTime : String → Int)
    (localeCompare : String → String → Int)
    (state : List Task) (f : FilterState) :
    (projectorRun getTime localeCompare state f).1 = state ∧
    (projectorRun getTime localeCompare state f).2
      = filteredTasks getTime localeCompare state f ∧
    List.Perm (filteredTasks getTime localeCompare state f)
      (state.filter (filterPred f)) := by
  refine ⟨rfl, rfl, ?_⟩
  unfold filteredTasks sortTasks
  exact List.perm_insertionSort _ _

/-- The rendering of a priority string is injective on the enum. -/
theorem priorityToStr_inj (p q : Priority) (h : p.toStr = q.toStr) : p = q := by
  cases p <;> cases q <;> first | rfl | exact absurd h (by decide)

/-- C9: a persisted snapshot read back by the load path is structurally
equal to the collection that was written: the loaded sequence is exactly
the per-task serialization of the original, in order, and the per-task
serialization is injective, so equal serializations mean tasks equal in
every field, with an absent dueDate staying absent. -/
theorem persist_load_roundtrip (tasks : List Task) :
    loadTasks (some (some (tasksToJson tasks))) = List.map taskToJson tasks ∧
    ∀ t1 t2 : Task, taskToJson t1 = taskToJson t2 → t1 = t2 := by
  constructor
  · rfl
  · intro t1 t2 h
    obtain ⟨i1, ti1, d1, c1, ca1, dd1, p1⟩ := t1
    obtain ⟨i2, ti2, d2, c2, ca2, dd2, p2⟩ := t2
    cases dd1 <;> cases dd2 <;> simp [taskToJson] at h <;>
      obtain ⟨h1, h2, h3, h4, h5, h6⟩ := h <;>
      simp_all <;> exact priorityToStr_inj _ _ (by simp_all)

/-- Witness for C9 at a concrete collection with and without dueDate. -/
theorem persist_load_roundtrip_check :
    loadTasks (some (some (tasksToJson [sampleTask, sampleDone])))
      = List.map taskToJson [sampleTask, sampleDone] ∧
    sampleTask = sampleTask :=
  ⟨(persist_load_roundtrip [sampleTask, sampleDone]).1,
    (persist_load_roundtrip [sampleTask, sampleDone]).2 sampleTask sampleTask rfl⟩

/-- C10: when the query is non-empty after trimming, the filter predicate
matches the raw untrimmed query, lowercased, as a substring of the
lowercased title or description — the trimmed form is used only for the
emptiness test — with the status and priority guards conjoined in front. -/
theorem filterPred_matches_untrimmed_query (f : FilterState) (t : Task)
    (h : jsTrim f.query ≠ "") :
    filterPred f t =
      (statusKeeps f t && priorityKeeps f t
        && (jsIncludes t.title.toLower f.query.toLower
            || jsIncludes t.description.toLower f.query.toLower)) := by
  unfold filterPred statusKeeps priorityKeeps
  rcases f with ⟨q, st, pr, so⟩
  simp only at h
  cases st <;> cases hc : t.completed <;>
    cases hp : priorityRejects pr t.priority <;> simp [hc, hp, h]

/-- Witness for C10: the query " a" (with its leading space) is matched
raw, so the title "xa", which contains "a" but not " a", does not match,
although the trimmed query would have matched it. -/
theorem filterPred_matches_untrimmed_query_check :
    (filterPred
        { query := " a", status := Status.all,
          priority := PriorityFilter.all, sort := SortKey.created }
        { sampleTask with title := "xa" } =
      (statusKeeps
          { query := " a", status := Status.all,
            priority := PriorityFilter.all, sort := SortKey.created }
          { sampleTask with title := "xa" }
        && priorityKeeps
          { query := " a", status := Status.all,
            priority := PriorityFilter.all, sort := SortKey.created }
          { sampleTask with title := "xa" }
        && (jsIncludes "xa".toLower " a".toLower
            || jsIncludes "".toLower " a".toLower))) ∧
    jsIncludes "xa" " a" = false ∧
    jsIncludes "xa" (jsTrim " a") = true :=
  ⟨filterPred_matches_untrimmed_query _ _ (by decide), by decide, by decide⟩

/-- The due-sort comparator order is total. -/
theorem dueCompare_total (g : String → Int) (lc : String → String → Int) :
    ∀ a b : Task, taskCompare g lc SortKey.due a b ≤ 0 ∨
      taskCompare g lc SortKey.due b a ≤ 0 := by
  intro a b
  unfold taskCompare
  cases hA : dueFalsy a <;> cases hB : dueFalsy b <;>
    (simp [hA, hB]; try omega)

/-- The due-sort comparator order is transitive. -/
theorem dueCompare_trans (g : String → Int) (lc : String → String → Int) :
    ∀ a b c : Task, taskCompare g lc SortKey.due a b ≤ 0 →
      taskCompare g lc SortKey.due b c ≤ 0 →
      taskCompare g lc SortKey.due a c ≤ 0 := by
  intro a b c hab hbc
  unfold taskCompare at hab hbc ⊢
  cases hA : dueFalsy a <;> cases hB : dueFalsy b <;> cases hC : dueFalsy c <;>
    (simp [hA, hB, hC] at hab hbc ⊢; try omega)

/-- Under the due sort key, the projected sequence is sorted by the due
comparator. -/
theorem filteredTasks_due_sorted (g : String → Int)
    (lc : String → String → Int) (tasks : List Task) (f : FilterState)
    (h : f.sort = SortKey.due) :
    List.Sorted (fun a b => taskCompare g lc SortKey.due a b ≤ 0)
      (filteredTasks g lc tasks f) := by
  unfold filteredTasks sortTasks
  rw [h]
  haveI : IsTotal Task (fun a b => taskCompare g lc SortKey.due a b ≤ 0) :=
    ⟨dueCompare_total g lc⟩
  haveI : IsTrans Task (fun a b => taskCompare g lc SortKey.due a b ≤ 0) :=
    ⟨dueCompare_trans g lc⟩
  exact List.sorted_insertionSort _ _

/-- What the due comparator's nonpositive results mean: with both due
dates present the timestamps are in order, and a missing due date on the
left forces a missing one on the right. -/
theorem dueCompare_le_elim (g : String → Int) (lc : String → String → Int)
    (a b : Task) (hab : taskCompare g lc SortKey.due a b ≤ 0) :
    (dueFalsy a = false → dueFalsy b = false →
      g (a.dueDate.getD "") ≤ g (b.dueDate.getD "")) ∧
    (dueFalsy a = true → dueFalsy b = true) := by
  unfold taskCompare at hab
  constructor
  · intro hA hB
    simp [hA, hB] at hab
    omega
  · intro hA
    by_contra hB
    rw [Bool.not_eq_true] at hB
    simp [hA, hB] at hab

/-- C6: when the sort key is "due", the projected sequence puts any two
tasks that both have a due date in ascending order of their due
timestamps, never puts a task without a due date before one that has one,
and the comparator ranks two tasks without a due date as equal. -/
theorem due_sort_ordering (g : String → Int) (lc : String → String → Int)
    (tasks : List Task) (f : FilterState) (h : f.sort = SortKey.due) :
    (∀ i j : Fin (filteredTasks g lc tasks f).length, i < j →
      ((dueFalsy ((filteredTasks g lc tasks f).get i) = false →
        dueFalsy ((filteredTasks g lc tasks f).get j) = false →
        g (((filteredTasks g lc tasks f).get i).dueDate.getD "") ≤
          g (((filteredTasks g lc tasks f).get j).dueDate.getD "")) ∧
       (dueFalsy ((filteredTasks g lc tasks f).get i) = true →
        dueFalsy ((filteredTasks g lc tasks f).get j) = true))) ∧
    (∀ a b : Task, dueFalsy a = true → dueFalsy b = true →
      taskCompare g lc SortKey.due a b = 0) := by
  constructor
  · intro i j hij
    exact dueCompare_le_elim g lc _ _
      (List.pairwise_iff_get.mp (filteredTasks_due_sorted g lc tasks f h) i j hij)
  · intro a b ha hb
    unfold taskCompare
    simp [ha, hb]

/-- Due-timestamp getter for the C6 witness. -/
def sampleGetTime : String → Int :=
  fun s => if s = "day1" then 1 else if s = "day2" then 2 else 0

/-- Locale comparison for the C6 witness. -/
def sampleLocale : String → String → Int := fun _ _ => 0

/-- A task due on day 1. -/
def taskDue1 : Task :=
  { id := "d1", title := "one", description := "", completed := false,
    createdAt := "c1", dueDate := some "day1", priority := Priority.medium }

/-- A task due on day 2. -/
def taskDue2 : Task :=
  { id := "d2", title := "two", description := "", completed := false,
    createdAt := "c2", dueDate := some "day2", priority := Priority.medium }

/-- A task with no due date. -/
def taskNoDue : Task :=
  { id := "nd", title := "free", description := "", completed := false,
    createdAt := "c3", dueDate := none, priority := Priority.medium }

/-- The filter specification selecting the due sort. -/
def dueFilter : FilterState :=
  { query := "", status := Status.all, priority := PriorityFilter.all,
    sort := SortKey.due }

/-- Witness for C6: the concrete collection with due dates day2, none,
day1 projects to the order day1, day2, none, and two tasks without a due
date rank equal under the comparator. -/
theorem due_sort_ordering_check :
    filteredTasks sampleGetTime sampleLocale [taskDue2, taskNoDue, taskDue1]
        dueFilter = [taskDue1, taskDue2, taskNoDue] ∧
    taskCompare sampleGetTime sampleLocale SortKey.due taskNoDue taskNoDue
      = 0 :=
  ⟨by decide,
    (due_sort_ordering sampleGetTime sampleLocale
        [taskDue2, taskNoDue, taskDue1] dueFilter rfl).2
      taskNoDue taskNoDue rfl rfl⟩

end Todo
